import Mathlib

/-!
Verification of the watson client (Lenstra/watson), a thin Go client for a
stack-outputs service.  The development shallowly embeds the two components
with decision logic:

* the configuration resolver (`DefaultConfig`, `NewClient` in
  `internal/client/client.go`): precedence between explicit settings,
  environment variables and a scheme embedded in the address string;
* the stack client (`validateStackName`, `GetOutputs`, `GetStack`): stack-name
  validation, HTTP status interpretation and JSON decoding of outputs and
  stack metadata;
* the provider-side read loop over decoded outputs
  (`internal/provider/watson_data_outputs.go`).

Go strings are Lean `String`s, the process environment is passed explicitly
as an `Env` record, machine integers (HTTP status codes) are `Nat`, the HTTP
transport is a function from request path to response, and the `*http.Client`
handle is an opaque `Option Nat` tag.  Errors built with `fmt.Errorf` are
represented by the `ClientError` variants, each carrying the same data the
formatted Go message carries.
-/

namespace Watson

/-- A JSON value as Go's `encoding/json` decodes it into `interface{}`:
`nil`, `string`, `float64` (numbers, modelled here by their integer value),
`bool`, `[]interface{}` and `map[string]interface{}` (modelled as an
association list in payload order). -/
inductive JsonValue where
  | null
  | str (s : String)
  | num (n : Int)
  | bool (b : Bool)
  | arr (elems : List JsonValue)
  | obj (fields : List (String × JsonValue))
  deriving Repr

/-- `type Config struct` of client.go.  The `*http.Client` is opaque to the
logic under verification; it is modelled as an optional numeric handle, `none`
playing the role of the nil pointer. -/
structure Config where
  Address : String
  Scheme : String
  Stack : String
  HttpClient : Option Nat
  deriving Repr, DecidableEq

/-- The three `watson_*` environment variables read by `DefaultConfig`,
passed explicitly so that resolution is a pure function of its inputs.
An unset variable is the empty string, exactly as `os.Getenv` reports it. -/
structure Env where
  watson_ADDRESS : String
  watson_SCHEME : String
  watson_STACK : String
  deriving Repr, DecidableEq

/-- The handle standing for `cleanhttp.DefaultPooledClient()`. -/
def defaultHttpClient : Nat := 0

/-- `DefaultConfig` of client.go: baseline scheme `https` and a default
pooled HTTP client, each of address/scheme/stack overridden by its
environment variable when that variable is non-empty. -/
def DefaultConfig (env : Env) : Config :=
  let config : Config :=
    { Address := "", Scheme := "https", Stack := "", HttpClient := some defaultHttpClient }
  let config :=
    if env.watson_ADDRESS ≠ "" then { config with Address := env.watson_ADDRESS } else config
  let config :=
    if env.watson_SCHEME ≠ "" then { config with Scheme := env.watson_SCHEME } else config
  let config :=
    if env.watson_STACK ≠ "" then { config with Stack := env.watson_STACK } else config
  config

/-- Lines 47-59 of `NewClient`: every empty (or nil) field of the
caller-supplied config is filled from `DefaultConfig`; non-empty explicit
fields are kept. -/
def mergeConfig (env : Env) (config : Config) : Config :=
  let defConfig := DefaultConfig env
  let config :=
    if config.Address = "" then { config with Address := defConfig.Address } else config
  let config :=
    if config.Scheme = "" then { config with Scheme := defConfig.Scheme } else config
  let config :=
    if config.Stack = "" then { config with Stack := defConfig.Stack } else config
  if config.HttpClient = none then { config with HttpClient := defConfig.HttpClient } else config

/-- Does `sep` occur at the head of `l`? (`strings.Index` comparison step.) -/
def startsWithL : List Char → List Char → Bool
  | [], _ => true
  | _ :: _, [] => false
  | a :: as, b :: bs => a = b && startsWithL as bs

/-- First occurrence of `sep` in `l`, as `strings.Index` finds it: `none` when
`sep` does not occur, otherwise the part before the occurrence and the part
after it. -/
def findSplit (sep : List Char) : List Char → Option (List Char × List Char)
  | [] => none
  | c :: cs =>
    if startsWithL sep (c :: cs) then some ([], (c :: cs).drop sep.length)
    else
      match findSplit sep cs with
      | some (pre, post) => some (c :: pre, post)
      | none => none

/-- `strings.SplitN(s, sep, 2)`: the whole string when `sep` does not occur,
otherwise the parts before and after the first occurrence. -/
def splitN2 (s sep : String) : List String :=
  match findSplit sep.toList s.toList with
  | none => [s]
  | some (pre, post) => [String.mk pre, String.mk post]

/-- The errors the client produces, one variant per `fmt.Errorf` call site
(plus the pass-through transport error), each carrying the data the Go
message interpolates. -/
inductive ClientError where
  | invalidStackName (stack : String)
  | invalidScheme (scheme : String)
  | unexpectedStatus (code : Nat)
  | decodeError
  | transport (msg : String)
  deriving Repr, DecidableEq

/-- Lines 61-72 of `NewClient`: when the address contains `://`, the part
before the first occurrence must be exactly `http` or `https` (any other
value fails with the unknown-protocol-scheme error naming it); on success the
scheme is overwritten by the embedded value and the address becomes the part
after the separator. -/
def applyEmbeddedScheme (config : Config) : Except ClientError Config :=
  match splitN2 config.Address "://" with
  | [p0, p1] =>
    if p0 = "http" then Except.ok { config with Scheme := "http", Address := p1 }
    else if p0 = "https" then Except.ok { config with Scheme := "https", Address := p1 }
    else Except.error (ClientError.invalidScheme p0)
  | _ => Except.ok config

/-- `type Client struct` of client.go: the resolved config and the static
headers sent on every request. -/
structure Client where
  config : Config
  headers : List (String × String)
  deriving Repr, DecidableEq

/-- Lines 74-77 of `NewClient`: the one static header, set only when the
resolved stack default is non-empty. -/
def mkHeaders (config : Config) : List (String × String) :=
  if config.Stack ≠ "" then [("x-watson-stack", config.Stack)] else []

/-- `NewClient` of client.go.  Go mutates the caller's `*Config` in place;
the model returns the final contents of that caller-visible config alongside
the result.  On the unknown-scheme error the empty-field defaults have
already been written into the caller's config (the split assignments have
not), exactly as the Go control flow leaves it. -/
def NewClient (env : Env) (config0 : Config) : Config × Except ClientError Client :=
  match applyEmbeddedScheme (mergeConfig env config0) with
  | Except.error e => (mergeConfig env config0, Except.error e)
  | Except.ok config2 =>
    (config2, Except.ok { config := config2, headers := mkHeaders config2 })

/-- `strings.Count(s, sep)` for a one-character separator counts the
occurrences of that character. -/
def countChar (s : String) (c : Char) : Nat := s.toList.count c

/-- `validateStackName` of client.go: a stack name is accepted exactly when
it contains exactly one slash; otherwise the not-a-valid-stack-name error
names the offending value. -/
def validateStackName (stack : String) : Except ClientError Unit :=
  if countChar stack '/' ≠ 1 then Except.error (ClientError.invalidStackName stack)
  else Except.ok ()

/-- `type Output struct` of client.go, exactly as written there: `Value`
(the dynamically-typed decoded JSON value), `Deprecated` and `Warning`.
The struct declares no `Sensitive` field, so the decoder has nowhere to put a
`sensitive` member of the payload (see the claims about it). -/
structure Output where
  Value : JsonValue
  Deprecated : String
  Warning : String
  deriving Repr

/-- The zero `Output`: nil interface value, empty strings. -/
def Output.zero : Output := { Value := JsonValue.null, Deprecated := "", Warning := "" }

/-- ASCII lower-casing of one character, as Go's field-name folding does. -/
def asciiLower (c : Char) : Char :=
  if 'A' ≤ c ∧ c ≤ 'Z' then Char.ofNat (c.toNat + 32) else c

/-- ASCII lower-casing of a string. -/
def lowerString (s : String) : String := String.mk (s.toList.map asciiLower)

/-- `encoding/json` matches an object key against a struct field name
case-insensitively (the protocol only uses ASCII keys). -/
def keyMatches (key fieldName : String) : Bool :=
  lowerString key == lowerString fieldName

/-- Decoding one object member into an `Output`, per `encoding/json`:
a member matching `Value` stores the decoded JSON value (JSON `null` makes the
interface nil, which is `JsonValue.null` here); a member matching `Deprecated`
or `Warning` must be a JSON string (JSON `null` is a no-op; any other type is
an unmarshal type error); members matching no field — `sensitive` among them —
are ignored. -/
def setOutputField (o : Output) (key : String) (v : JsonValue) : Except ClientError Output :=
  if keyMatches key "Value" then Except.ok { o with Value := v }
  else if keyMatches key "Deprecated" then
    match v with
    | JsonValue.str s => Except.ok { o with Deprecated := s }
    | JsonValue.null => Except.ok o
    | _ => Except.error ClientError.decodeError
  else if keyMatches key "Warning" then
    match v with
    | JsonValue.str s => Except.ok { o with Warning := s }
    | JsonValue.null => Except.ok o
    | _ => Except.error ClientError.decodeError
  else Except.ok o

/-- Decoding a JSON value into an `Output` struct: an object is folded member
by member over the zero value, `null` leaves the zero value, anything else is
a type error. -/
def decodeOutput (j : JsonValue) : Except ClientError Output :=
  match j with
  | JsonValue.obj fields =>
    fields.foldlM (fun o kv => setOutputField o kv.1 kv.2) Output.zero
  | JsonValue.null => Except.ok Output.zero
  | _ => Except.error ClientError.decodeError

/-- `type Outputs map[string]Output`, modelled as an association list in
payload order (a JSON object's keys are unique, so the order never matters to
the map contents). -/
abbrev Outputs := List (String × Output)

/-- Decoding a response body into `Outputs`: a JSON object whose every member
value decodes as an `Output`; JSON `null` leaves the nil map; anything else
is a type error. -/
def decodeOutputs (j : JsonValue) : Except ClientError Outputs :=
  match j with
  | JsonValue.obj fields =>
    fields.mapM (fun kv => (decodeOutput kv.2).map (fun o => (kv.1, o)))
  | JsonValue.null => Except.ok []
  | _ => Except.error ClientError.decodeError

/-- One element of `Stack.UsedBy` in client.go: json tags `id`, `url`,
`last_used_at`.  The `time.Time` is kept as its RFC3339 string; parsing the
timestamp format is outside the logic under verification. -/
structure UsedByEntry where
  Id : String
  URL : String
  LastUsedAt : String
  deriving Repr, DecidableEq

/-- The zero `UsedByEntry`. -/
def UsedByEntry.zero : UsedByEntry := { Id := "", URL := "", LastUsedAt := "" }

/-- Decoding one object member into a `UsedByEntry` (tags `id`, `url`,
`last_used_at`; each must be a JSON string, `null` is a no-op, unknown keys
are ignored). -/
def setUsedByField (e : UsedByEntry) (key : String) (v : JsonValue) :
    Except ClientError UsedByEntry :=
  if keyMatches key "id" then
    match v with
    | JsonValue.str s => Except.ok { e with Id := s }
    | JsonValue.null => Except.ok e
    | _ => Except.error ClientError.decodeError
  else if keyMatches key "url" then
    match v with
    | JsonValue.str s => Except.ok { e with URL := s }
    | JsonValue.null => Except.ok e
    | _ => Except.error ClientError.decodeError
  else if keyMatches key "last_used_at" then
    match v with
    | JsonValue.str s => Except.ok { e with LastUsedAt := s }
    | JsonValue.null => Except.ok e
    | _ => Except.error ClientError.decodeError
  else Except.ok e

/-- Decoding a JSON value into a `UsedByEntry`. -/
def decodeUsedByEntry (j : JsonValue) : Except ClientError UsedByEntry :=
  match j with
  | JsonValue.obj fields =>
    fields.foldlM (fun e kv => setUsedByField e kv.1 kv.2) UsedByEntry.zero
  | JsonValue.null => Except.ok UsedByEntry.zero
  | _ => Except.error ClientError.decodeError

/-- `type Stack struct` of client.go: json tags `id`, `name`, `url`,
`used_by`. -/
structure Stack where
  Id : String
  Name : String
  URL : String
  UsedBy : List UsedByEntry
  deriving Repr, DecidableEq

/-- The zero `Stack`. -/
def Stack.zero : Stack := { Id := "", Name := "", URL := "", UsedBy := [] }

/-- Decoding one object member into a `Stack`: `used_by` decodes a JSON array
element by element in server order (JSON `null` leaves the nil slice); the
three string fields behave as for `Output`. -/
def setStackField (s : Stack) (key : String) (v : JsonValue) : Except ClientError Stack :=
  if keyMatches key "id" then
    match v with
    | JsonValue.str x => Except.ok { s with Id := x }
    | JsonValue.null => Except.ok s
    | _ => Except.error ClientError.decodeError
  else if keyMatches key "name" then
    match v with
    | JsonValue.str x => Except.ok { s with Name := x }
    | JsonValue.null => Except.ok s
    | _ => Except.error ClientError.decodeError
  else if keyMatches key "url" then
    match v with
    | JsonValue.str x => Except.ok { s with URL := x }
    | JsonValue.null => Except.ok s
    | _ => Except.error ClientError.decodeError
  else if keyMatches key "used_by" then
    match v with
    | JsonValue.arr elems =>
      (elems.mapM decodeUsedByEntry).map (fun l => { s with UsedBy := l })
    | JsonValue.null => Except.ok s
    | _ => Except.error ClientError.decodeError
  else Except.ok s

/-- Decoding a JSON value into a `Stack`. -/
def decodeStack (j : JsonValue) : Except ClientError Stack :=
  match j with
  | JsonValue.obj fields =>
    fields.foldlM (fun s kv => setStackField s kv.1 kv.2) Stack.zero
  | JsonValue.null => Except.ok Stack.zero
  | _ => Except.error ClientError.decodeError

/-- What the transport gives back for one request: an HTTP response (status
code and body — `none` standing for a body that is not well-formed JSON), or
a network-level failure as `http.Client.Do` reports it. -/
inductive HttpResult where
  | response (statusCode : Nat) (body : Option JsonValue)
  | transportFailure (msg : String)

/-- The transport: `doRequest` reduced to its observable behaviour, a
function from the request path to the result.  The resolved scheme, host and
headers of the `Client` are attached to every request; they do not influence
the control flow under verification. -/
def Transport := String → HttpResult

/-- `GetOutputs` of client.go.  The first component is the list of request
paths actually issued (empty exactly when no network call was made), the
second the returned value: `Except` mirrors the Go error return, and the
`Option` mirrors the `*Outputs` result pointer — `none` is the nil pointer
returned for HTTP 404. -/
def GetOutputs (transport : Transport) (c : Client) (stack : String) :
    List String × Except ClientError (Option Outputs) :=
  match validateStackName stack with
  | Except.error e => ([], Except.error e)
  | Except.ok () =>
    let path := "/v1/projects/" ++ stack ++ "/outputs/"
    match transport path with
    | HttpResult.transportFailure msg => ([path], Except.error (ClientError.transport msg))
    | HttpResult.response code body =>
      ([path],
        if code = 200 then
          match body with
          | none => Except.error ClientError.decodeError
          | some j => (decodeOutputs j).map some
        else if code = 404 then Except.ok none
        else Except.error (ClientError.unexpectedStatus code))

/-- `GetStack` of client.go, with the same conventions as `GetOutputs`. -/
def GetStack (transport : Transport) (c : Client) (stack : String) :
    List String × Except ClientError (Option Stack) :=
  match validateStackName stack with
  | Except.error e => ([], Except.error e)
  | Except.ok () =>
    let path := "/v1/projects/" ++ stack ++ "/"
    match transport path with
    | HttpResult.transportFailure msg => ([path], Except.error (ClientError.transport msg))
    | HttpResult.response code body =>
      ([path],
        if code = 200 then
          match body with
          | none => Except.error ClientError.decodeError
          | some j => (decodeStack j).map some
        else if code = 404 then Except.ok none
        else Except.error (ClientError.unexpectedStatus code))

/-- Severity of a terraform diagnostic: `AddWarning` or `AddError`. -/
inductive Severity where
  | warn
  | fail
  deriving Repr, DecidableEq

/-- One diagnostic as the provider emits it: severity, summary, detail. -/
structure Diagnostic where
  severity : Severity
  summary : String
  detail : String
  deriving Repr, DecidableEq

/-- The object value the provider's Read loop stores per convertible output:
attributes `value`, `sensitive`, `deprecated`, `warning`. -/
structure ProviderOutputEntry where
  value : String
  sensitive : Bool
  deprecated : String
  warning : String
  deriving Repr, DecidableEq

/-- Go's `%q` for the plain ASCII keys used here: the string in double
quotes (the full escaping rules never fire on these keys). -/
def goQuote (s : String) : String := "\x22" ++ s ++ "\x22"

/-- Go's `%T` on a value decoded from JSON into `interface{}`. -/
def goTypeName : JsonValue → String
  | JsonValue.str _ => "string"
  | JsonValue.num _ => "float64"
  | JsonValue.bool _ => "bool"
  | JsonValue.null => "<nil>"
  | JsonValue.arr _ => "[]interface {}"
  | JsonValue.obj _ => "map[string]interface {}"

/-- Is the dynamic value the string variant? -/
def isStringValue : JsonValue → Bool
  | JsonValue.str _ => true
  | _ => false

/-- One iteration of the loop in `OutputsDataSource.Read`
(watson_data_outputs.go lines 118-147) over one decoded output `(k, v)`:
a string-valued output is converted to the object entry, any other dynamic
type adds the ignored-output warning naming the key and the Go type name; a
non-empty `Deprecated` then adds the deprecation warning, and — gated on
`Deprecated` again, as the source is written — the warning-field advisory.
The source also reads `v.Sensitive`, a field `client.Output` does not have
(the repository does not compile as written); its Bool zero value `false`
stands in here. -/
def readOutputsStep (acc : List (String × ProviderOutputEntry) × List Diagnostic)
    (k : String) (v : Output) : List (String × ProviderOutputEntry) × List Diagnostic :=
  let resultDiags : List (String × ProviderOutputEntry) × List Diagnostic :=
    match v.Value with
    | JsonValue.str s =>
      (acc.1 ++ [(k, { value := s, sensitive := false,
                       deprecated := v.Deprecated, warning := v.Warning })], acc.2)
    | other =>
      (acc.1, acc.2 ++ [{ severity := Severity.warn
                          summary := "ignored output"
                          detail := "output " ++ goQuote k ++ " has type "
                            ++ goTypeName other ++ " and is ignored for now" }])
  let diags :=
    if v.Deprecated ≠ "" then
      resultDiags.2 ++ [{ severity := Severity.warn
                          summary := "Output " ++ k ++ " is deprecated"
                          detail := v.Deprecated }]
    else resultDiags.2
  let diags :=
    if v.Deprecated ≠ "" then
      diags ++ [{ severity := Severity.warn
                  summary := "The output " ++ k ++ " has a warning"
                  detail := v.Warning }]
    else diags
  (resultDiags.1, diags)

/-- The whole Read loop over the decoded outputs, in payload order: the
converted entries and the emitted diagnostics. -/
def readOutputs (outputs : Outputs) : List (String × ProviderOutputEntry) × List Diagnostic :=
  outputs.foldl (fun acc kv => readOutputsStep acc kv.1 kv.2) ([], [])

/-- The entry the loop produces for one output, when it produces one:
exactly the string-valued outputs are converted. -/
def entryFor (kv : String × Output) : Option (String × ProviderOutputEntry) :=
  match kv.2.Value with
  | JsonValue.str s =>
    some (kv.1, { value := s, sensitive := false,
                  deprecated := kv.2.Deprecated, warning := kv.2.Warning })
  | _ => none

/-- The ignored-output diagnostic for key `k` holding dynamic value `v`. -/
def ignoredDiag (k : String) (v : JsonValue) : Diagnostic :=
  { severity := Severity.warn, summary := "ignored output",
    detail := "output " ++ goQuote k ++ " has type " ++ goTypeName v
      ++ " and is ignored for now" }

/-- The diagnostics the loop emits for one output, in emission order. -/
def diagsFor (kv : String × Output) : List Diagnostic :=
  (match kv.2.Value with
   | JsonValue.str _ => []
   | other => [ignoredDiag kv.1 other])
  ++ (if kv.2.Deprecated ≠ "" then
        [{ severity := Severity.warn
           summary := "Output " ++ kv.1 ++ " is deprecated"
           detail := kv.2.Deprecated }]
      else [])
  ++ (if kv.2.Deprecated ≠ "" then
        [{ severity := Severity.warn
           summary := "The output " ++ kv.1 ++ " has a warning"
           detail := kv.2.Warning }]
      else [])

/-- The scheme and host of a successfully constructed client, `none` when
resolution fails. -/
def resolvedSchemeHost (env : Env) (cfg : Config) : Option (String × String) :=
  match (NewClient env cfg).2 with
  | Except.ok cl => some (cl.config.Scheme, cl.config.Address)
  | Except.error _ => none

/-- A sample resolved client for concrete runs of the stack operations. -/
def clientEx : Client :=
  { config := { Address := "myhost", Scheme := "https", Stack := "",
                HttpClient := some defaultHttpClient },
    headers := [] }

/-- A counted occurrence characterisation: a list holds exactly one `c`
exactly when it splits as a `c`-free part, `c`, and a second `c`-free part. -/
theorem count_eq_one_iff_split (c : Char) (l : List Char) :
    l.count c = 1 ↔ ∃ a b, l = a ++ c :: b ∧ c ∉ a ∧ c ∉ b := by
  constructor
  · intro h
    induction l with
    | nil => simp at h
    | cons x xs ih =>
      by_cases hx : x = c
      · subst hx
        rw [List.count_cons_self] at h
        have h0 : xs.count x = 0 := by omega
        exact ⟨[], xs, rfl, by simp, List.count_eq_zero.mp h0⟩
      · have hcx : xs.count c = 1 := by
          rw [List.count_cons] at h
          simp [hx] at h
          omega
        obtain ⟨a, b, hab, ha, hb⟩ := ih hcx
        refine ⟨x :: a, b, by simp [hab], ?_, hb⟩
        intro hmem
        rcases List.mem_cons.mp hmem with h1 | h2
        · exact hx h1.symm
        · exact ha h2
  · rintro ⟨a, b, rfl, ha, hb⟩
    simp [List.count_append, List.count_cons, List.count_eq_zero.mpr ha,
      List.count_eq_zero.mpr hb]

/-- C1 (counterexample): the string consisting of the separator alone has an
empty namespace half and an empty name half, so the claim requires validation
to fail on it; the code accepts it, because `validateStackName` only counts
separators and never checks that the halves are non-empty. -/
theorem validateStackName_accepts_empty_halves :
    validateStackName "/" = Except.ok () := by rfl

/-- C1 (amended): stack-name validation succeeds exactly on the strings with
exactly one `/` separator — equivalently, the strings of the form
`<namespace>/<name>` where neither half contains a further `/`; the halves
are allowed to be empty.  For every other string (zero or two or more
separators) validation fails with the invalid-stack-name error naming the
offending value. -/
theorem validateStackName_ok_iff (s : String) :
    (validateStackName s = Except.ok () ↔
      ∃ a b, s.toList = a ++ '/' :: b ∧ '/' ∉ a ∧ '/' ∉ b) ∧
    (validateStackName s ≠ Except.ok () →
      validateStackName s = Except.error (ClientError.invalidStackName s)) := by
  have hcount : validateStackName s = Except.ok () ↔ countChar s '/' = 1 := by
    unfold validateStackName
    by_cases hc : countChar s '/' = 1
    · simp [hc]
    · simp [hc]
  have h2 : countChar s '/' = 1 ↔ ∃ a b, s.toList = a ++ '/' :: b ∧ '/' ∉ a ∧ '/' ∉ b :=
    count_eq_one_iff_split '/' s.toList
  constructor
  · rw [hcount]
    exact h2
  · intro h
    have hc : ¬ countChar s '/' = 1 := fun hcc => h (hcount.mpr hcc)
    simp [validateStackName, hc]

/-- C6: against a 404 response, both retrieval operations return the absent
marker (the nil result pointer) with no error, for every stack identifier the
validator accepts. -/
theorem fetch_404_yields_absent (c : Client) (stack : String) (body : Option JsonValue)
    (hvalid : validateStackName stack = Except.ok ()) :
    (GetOutputs (fun _ => HttpResult.response 404 body) c stack).2 = Except.ok none ∧
    (GetStack (fun _ => HttpResult.response 404 body) c stack).2 = Except.ok none := by
  unfold GetOutputs GetStack
  rw [hvalid]
  simp

/-- C6 witness: a concrete 404 run of both operations. -/
theorem fetch_404_yields_absent_w :
    (GetOutputs (fun _ => HttpResult.response 404 none) clientEx "backend/load-balancers").2
      = Except.ok none ∧
    (GetStack (fun _ => HttpResult.response 404 none) clientEx "backend/load-balancers").2
      = Except.ok none :=
  fetch_404_yields_absent clientEx "backend/load-balancers" none (by rfl)

/-- C7: against any status code other than 200 and 404, both retrieval
operations fail with the unexpected-status error carrying exactly that
numeric code. -/
theorem fetch_other_status_unexpected (c : Client) (stack : String) (code : Nat)
    (body : Option JsonValue) (hvalid : validateStackName stack = Except.ok ())
    (h200 : code ≠ 200) (h404 : code ≠ 404) :
    (GetOutputs (fun _ => HttpResult.response code body) c stack).2
      = Except.error (ClientError.unexpectedStatus code) ∧
    (GetStack (fun _ => HttpResult.response code body) c stack).2
      = Except.error (ClientError.unexpectedStatus code) := by
  unfold GetOutputs GetStack
  rw [hvalid]
  simp [h200, h404]

/-- C7 witness: a concrete 503 run of both operations. -/
theorem fetch_other_status_unexpected_w :
    (GetOutputs (fun _ => HttpResult.response 503 none) clientEx "backend/load-balancers").2
      = Except.error (ClientError.unexpectedStatus 503) ∧
    (GetStack (fun _ => HttpResult.response 503 none) clientEx "backend/load-balancers").2
      = Except.error (ClientError.unexpectedStatus 503) :=
  fetch_other_status_unexpected clientEx "backend/load-balancers" 503 none (by rfl)
    (by decide) (by decide)

/-- C8: for every string the validator rejects, both retrieval operations
return the invalid-stack-name failure naming the offending value, and the
list of issued requests is empty — no network call is made on that path,
whatever the transport would answer. -/
theorem fetch_invalid_name_no_request (transport : Transport) (c : Client) (stack : String)
    (hinv : countChar stack '/' ≠ 1) :
    GetOutputs transport c stack = ([], Except.error (ClientError.invalidStackName stack)) ∧
    GetStack transport c stack = ([], Except.error (ClientError.invalidStackName stack)) := by
  unfold GetOutputs GetStack validateStackName
  simp [hinv]

/-- C8 witness: a concrete invalid name against a transport that would
answer 200; no request is issued. -/
theorem fetch_invalid_name_no_request_w :
    GetOutputs (fun _ => HttpResult.response 200 (some (JsonValue.obj []))) clientEx "hello"
      = ([], Except.error (ClientError.invalidStackName "hello")) ∧
    GetStack (fun _ => HttpResult.response 200 (some (JsonValue.obj []))) clientEx "hello"
      = ([], Except.error (ClientError.invalidStackName "hello")) :=
  fetch_invalid_name_no_request (fun _ => HttpResult.response 200 (some (JsonValue.obj [])))
    clientEx "hello" (by decide)

/-- C2 (code bug): the `sensitive` member of an output object is silently
dropped, because `client.Output` declares no `Sensitive` field — two 200
responses differing only in `sensitive` decode to identical results, and the
decoded output retains only value/deprecated/warning.  The provider schema,
the provider's Read method (which reads `v.Sensitive`) and the acceptance
test all expect the field, so the client struct is the slip. -/
theorem getOutputs_drops_sensitive :
    GetOutputs (fun _ => HttpResult.response 200 (some (JsonValue.obj
        [("hostname", JsonValue.obj [("value", JsonValue.str "https://hello.example"),
          ("sensitive", JsonValue.bool true)])]))) clientEx "backend/load-balancers"
      = GetOutputs (fun _ => HttpResult.response 200 (some (JsonValue.obj
        [("hostname", JsonValue.obj [("value", JsonValue.str "https://hello.example"),
          ("sensitive", JsonValue.bool false)])]))) clientEx "backend/load-balancers"
    ∧ decodeOutputs (JsonValue.obj [("hostname", JsonValue.obj
        [("value", JsonValue.str "https://hello.example"),
         ("sensitive", JsonValue.bool true)])])
      = Except.ok [("hostname",
          Output.mk (JsonValue.str "https://hello.example") "" "")] :=
  ⟨rfl, rfl⟩

/-- A list is a prefix of itself followed by anything. -/
theorem startsWithL_append (l t : List Char) : startsWithL l (l ++ t) = true := by
  induction l with
  | nil => rfl
  | cons c cs ih => simp [startsWithL, ih]

/-- Concatenating strings concatenates their character lists. -/
theorem toList_append (a b : String) : (a ++ b).toList = a.toList ++ b.toList := by
  cases a; cases b; rfl

/-- `String.mk` undoes `String.toList`. -/
theorem mk_toList (s : String) : String.mk s.toList = s := by cases s; rfl

/-- If `://` is not a prefix of `c :: cs`, it is not a prefix of
`c :: cs ++ "://" ++ rest` either: no proper prefix of `://` is also one of
its suffixes, so an occurrence cannot straddle the boundary. -/
theorem startsWithL_sep3_extend (c : Char) (cs rest : List Char)
    (hsw : startsWithL (':' :: '/' :: '/' :: []) (c :: cs) = false) :
    startsWithL (':' :: '/' :: '/' :: [])
      (c :: (cs ++ (':' :: '/' :: '/' :: []) ++ rest)) = false := by
  match cs with
  | [] => simp [startsWithL]
  | [d] => simp [startsWithL]
  | d :: e :: t =>
    simp [startsWithL] at hsw ⊢
    intro h1 h2 h3
    exact hsw h1 h2 h3

/-- Unfolding one step of a failed search: the separator is not a prefix
here, and the search also fails on the tail. -/
theorem findSplit_sep3_none (l : List Char)
    (h : findSplit (':' :: '/' :: '/' :: []) l = none) :
    (∀ c cs, l = c :: cs →
      startsWithL (':' :: '/' :: '/' :: []) l = false ∧
      findSplit (':' :: '/' :: '/' :: []) cs = none) := by
  intro c cs hl
  subst hl
  unfold findSplit at h
  by_cases hsw : startsWithL (':' :: '/' :: '/' :: []) (c :: cs) = true
  · rw [if_pos hsw] at h
    cases h
  · refine ⟨by simpa using hsw, ?_⟩
    rw [if_neg hsw] at h
    rcases hfc : findSplit (':' :: '/' :: '/' :: []) cs with _ | pr
    · rfl
    · rw [hfc] at h
      rcases pr with ⟨pre, post⟩
      cases h

/-- The first occurrence of `://` in `pre ++ "://" ++ rest` is the explicit
one, provided `://` does not occur inside `pre` — i.e. `pre` really is the
part before the first separator. -/
theorem findSplit_append_sep3 (pre rest : List Char)
    (hpre : findSplit (':' :: '/' :: '/' :: []) pre = none) :
    findSplit (':' :: '/' :: '/' :: []) (pre ++ (':' :: '/' :: '/' :: []) ++ rest)
      = some (pre, rest) := by
  induction pre with
  | nil =>
    have hs : startsWithL (':' :: '/' :: '/' :: [])
        (':' :: (('/' :: '/' :: []) ++ rest)) = true :=
      startsWithL_append (':' :: '/' :: '/' :: []) rest
    have hd : (':' :: (('/' :: '/' :: []) ++ rest)).drop
        (':' :: '/' :: '/' :: []).length = rest :=
      List.drop_left (':' :: '/' :: '/' :: []) rest
    show findSplit (':' :: '/' :: '/' :: [])
        (':' :: (('/' :: '/' :: []) ++ rest)) = some ([], rest)
    simp only [List.cons_append, List.nil_append] at hs hd ⊢
    unfold findSplit
    rw [hs]
    simp [hd]
  | cons c cs ih =>
    obtain ⟨hsw, hrec⟩ := findSplit_sep3_none (c :: cs) hpre c cs rfl
    have hstart := startsWithL_sep3_extend c cs rest hsw
    show findSplit (':' :: '/' :: '/' :: [])
        (c :: (cs ++ (':' :: '/' :: '/' :: []) ++ rest)) = some (c :: cs, rest)
    unfold findSplit
    rw [hstart]
    have ih2 := ih hrec
    rw [List.append_assoc, List.cons_append] at ih2
    simp only [List.cons_append, List.nil_append] at ih2
    simp [ih2]

/-- `strings.SplitN` on an address of the shape `p ++ "://" ++ rest` finds
the explicit separator, provided `p` itself contains no `://` (expressed
through the splitter itself: splitting `p` finds nothing). -/
theorem splitN2_embedded (p rest : String) (hp : splitN2 p "://" = [p]) :
    splitN2 (p ++ "://" ++ rest) "://" = [p, rest] := by
  have hnone : findSplit (':' :: '/' :: '/' :: []) p.toList = none := by
    unfold splitN2 at hp
    rcases hfc : findSplit (("://" : String).toList) p.toList with _ | pr
    · exact hfc
    · rw [hfc] at hp
      rcases pr with ⟨a, b⟩
      simp at hp
  unfold splitN2
  have h1 : (p ++ "://" ++ rest).toList
      = p.toList ++ (':' :: '/' :: '/' :: []) ++ rest.toList := by
    rw [toList_append, toList_append]
    rfl
  rw [h1, show ("://" : String).toList = ':' :: '/' :: '/' :: [] from rfl]
  rw [findSplit_append_sep3 p.toList rest.toList hnone]
  simp [mk_toList]

/-- What a successful embedded-scheme step can look like: either the address
contained `://` and the scheme/address were rewritten from the split (the
prefix being one of the two recognized values), or it did not and the config
is untouched. -/
theorem applyEmbeddedScheme_ok (config c2 : Config)
    (h : applyEmbeddedScheme config = Except.ok c2) :
    (∃ p rest, splitN2 config.Address "://" = [p, rest] ∧ (p = "http" ∨ p = "https") ∧
      c2 = { config with Scheme := p, Address := rest }) ∨
    ((splitN2 config.Address "://").length ≠ 2 ∧ c2 = config) := by
  unfold applyEmbeddedScheme at h
  rcases hl : splitN2 config.Address "://" with _ | ⟨a, _ | ⟨b, _ | ⟨x, t⟩⟩⟩
  · right
    rw [hl] at h
    exact ⟨by simp, by cases h; rfl⟩
  · right
    rw [hl] at h
    exact ⟨by simp, by cases h; rfl⟩
  · left
    rw [hl] at h
    by_cases ha : a = "http"
    · refine ⟨a, b, rfl, Or.inl ha, ?_⟩
      simp [ha] at h
      cases h
      rw [ha]
    · by_cases ha2 : a = "https"
      · refine ⟨a, b, rfl, Or.inr ha2, ?_⟩
        simp [ha, ha2] at h
        cases h
        rw [ha2]
      · simp [ha, ha2] at h
  · right
    rw [hl] at h
    exact ⟨by simp, by cases h; rfl⟩

/-- An unrecognized prefix before `://` makes the embedded-scheme step fail
with the unknown-protocol-scheme error naming it. -/
theorem applyEmbeddedScheme_bad (config : Config) (p rest : String)
    (h1 : splitN2 config.Address "://" = [p, rest])
    (hp : p ≠ "http") (hp2 : p ≠ "https") :
    applyEmbeddedScheme config = Except.error (ClientError.invalidScheme p) := by
  unfold applyEmbeddedScheme
  rw [h1]
  simp [hp, hp2]

/-- The merge step, flattened: each field keeps the explicit value when one
was supplied and falls back to the environment-layered default otherwise;
the scheme falls back to `https` when neither source sets it. -/
theorem mergeConfig_eq (env : Env) (cfg : Config) :
    mergeConfig env cfg =
      { Address := if cfg.Address = "" then env.watson_ADDRESS else cfg.Address,
        Scheme := if cfg.Scheme = "" then
            (if env.watson_SCHEME = "" then "https" else env.watson_SCHEME)
          else cfg.Scheme,
        Stack := if cfg.Stack = "" then env.watson_STACK else cfg.Stack,
        HttpClient := if cfg.HttpClient = none then some defaultHttpClient
          else cfg.HttpClient } := by
  by_cases ha : cfg.Address = "" <;> by_cases hs : cfg.Scheme = "" <;>
    by_cases hst : cfg.Stack = "" <;> by_cases hh : cfg.HttpClient = none <;>
    by_cases hea : env.watson_ADDRESS = "" <;> by_cases hes : env.watson_SCHEME = "" <;>
    by_cases hest : env.watson_STACK = "" <;>
    simp [mergeConfig, DefaultConfig, ha, hs, hst, hh, hea, hes, hest]

/-- C3 (counterexample): an explicitly supplied scheme is not validated, so a
client is successfully constructed with the unrecognized scheme `ftp` — the
claimed invariant that every constructed client has scheme `http` or `https`
fails when the scheme arrives through the scheme field rather than embedded
in the address. -/
theorem newClient_accepts_ftp_scheme :
    resolvedSchemeHost ⟨"", "", ""⟩ ⟨"myhost", "ftp", "a/b", some defaultHttpClient⟩
        = some ("ftp", "myhost")
      ∧ "ftp" ≠ "http" ∧ "ftp" ≠ "https" :=
  ⟨rfl, by decide, by decide⟩

/-- C3 (amended): the scheme of a successfully constructed client is one of
`http`/`https` whenever the merged address embedded a `://` separator, and an
unrecognized embedded prefix makes resolution fail before any client is
produced; a scheme supplied through the scheme field or the environment is
passed through unvalidated. -/
theorem client_scheme_invariant :
    (∀ (env : Env) (cfg : Config) (cl : Client),
      (NewClient env cfg).2 = Except.ok cl →
      (splitN2 (mergeConfig env cfg).Address "://").length = 2 →
      cl.config.Scheme = "http" ∨ cl.config.Scheme = "https") ∧
    (∀ (env : Env) (cfg : Config) (p rest : String),
      splitN2 (mergeConfig env cfg).Address "://" = [p, rest] →
      p ≠ "http" → p ≠ "https" →
      (NewClient env cfg).2 = Except.error (ClientError.invalidScheme p)) := by
  constructor
  · intro env cfg cl h hlen
    unfold NewClient at h
    rcases hap : applyEmbeddedScheme (mergeConfig env cfg) with e | c2
    · rw [hap] at h
      cases h
    · rw [hap] at h
      cases h
      rcases applyEmbeddedScheme_ok _ _ hap with ⟨p, rest, _, hpor, hc2⟩ | ⟨hne, _⟩
      · rcases hpor with hp | hp <;> [left; right] <;> simp [hc2, hp]
      · exact absurd hlen hne
  · intro env cfg p rest hsp hp hp2
    unfold NewClient
    rw [applyEmbeddedScheme_bad _ p rest hsp hp hp2]

/-- C3 witness: against a concrete config whose address embeds `https://`,
resolution succeeds and the first part of the amended statement places the
resulting scheme among the two recognized values. -/
theorem client_scheme_invariant_w :
    ((⟨⟨"h", "https", "a/b", some defaultHttpClient⟩,
        [("x-watson-stack", "a/b")]⟩ : Client).config.Scheme = "http" ∨
      (⟨⟨"h", "https", "a/b", some defaultHttpClient⟩,
        [("x-watson-stack", "a/b")]⟩ : Client).config.Scheme = "https") :=
  client_scheme_invariant.1 ⟨"", "", ""⟩ ⟨"https://h", "", "a/b", some defaultHttpClient⟩
    ⟨⟨"h", "https", "a/b", some defaultHttpClient⟩, [("x-watson-stack", "a/b")]⟩
    rfl (by rfl)

/-- C4: when the merged address has the shape `p ++ "://" ++ rest` with no
`://` inside `p` — i.e. `p` is the part before the first separator —
resolution with prefix `http` or `https` yields exactly that scheme,
overriding whatever scheme was supplied or defaulted, and host `rest`; any
other prefix fails with the unknown-protocol-scheme error naming it. -/
theorem embedded_scheme_resolution (env : Env) (cfg : Config) (p rest : String)
    (haddr : (mergeConfig env cfg).Address = p ++ "://" ++ rest)
    (hp : splitN2 p "://" = [p]) :
    (p = "http" → resolvedSchemeHost env cfg = some ("http", rest)) ∧
    (p = "https" → resolvedSchemeHost env cfg = some ("https", rest)) ∧
    (p ≠ "http" → p ≠ "https" →
      (NewClient env cfg).2 = Except.error (ClientError.invalidScheme p)) := by
  have hsp : splitN2 (mergeConfig env cfg).Address "://" = [p, rest] := by
    rw [haddr]
    exact splitN2_embedded p rest hp
  refine ⟨?_, ?_, ?_⟩
  · intro hhttp
    unfold resolvedSchemeHost NewClient applyEmbeddedScheme
    rw [hsp]
    simp [hhttp]
  · intro hhttps
    have hhttp : p ≠ "http" := by
      rw [hhttps]
      decide
    unfold resolvedSchemeHost NewClient applyEmbeddedScheme
    rw [hsp]
    simp [hhttp, hhttps]
  · intro h1 h2
    unfold NewClient
    rw [applyEmbeddedScheme_bad _ p rest hsp h1 h2]

/-- C4 witness: a concrete `https://`-prefixed address resolves to scheme
`https` and host `example.com:8500`, overriding the explicitly supplied
scheme `http`. -/
theorem embedded_scheme_resolution_w :
    resolvedSchemeHost ⟨"", "", ""⟩ ⟨"https://example.com:8500", "http", "a/b", some 0⟩
      = some ("https", "example.com:8500") :=
  (embedded_scheme_resolution ⟨"", "", ""⟩
      ⟨"https://example.com:8500", "http", "a/b", some 0⟩ "https" "example.com:8500"
      (by rfl) (by rfl)).2.1 rfl

/-- C5: explicit configuration wins over environment configuration for
every field whenever both are set; environment values only fill empty
fields; the scheme resolves to `https` when neither source sets it; and the
end-to-end scenario — explicit address `myhost:8080`, no explicit scheme,
environment scheme `http` — resolves to host `myhost:8080` with scheme
`http`. -/
theorem config_precedence (env : Env) (cfg : Config) :
    (mergeConfig env cfg).Address
        = (if cfg.Address = "" then env.watson_ADDRESS else cfg.Address) ∧
    (mergeConfig env cfg).Scheme
        = (if cfg.Scheme = "" then
             (if env.watson_SCHEME = "" then "https" else env.watson_SCHEME)
           else cfg.Scheme) ∧
    (mergeConfig env cfg).Stack
        = (if cfg.Stack = "" then env.watson_STACK else cfg.Stack) ∧
    resolvedSchemeHost ⟨"", "http", ""⟩ ⟨"myhost:8080", "", "", some defaultHttpClient⟩
        = some ("http", "myhost:8080") := by
  rw [mergeConfig_eq]
  exact ⟨rfl, rfl, rfl, rfl⟩

/-- C10: `NewClient` rewrites the caller-supplied configuration: on success
the caller-visible config is exactly the one the client captures, its empty
stack and nil HTTP client are overwritten with the defaults, and when the
merged address embedded a scheme prefix the caller's address and scheme are
rewritten to the split values; without an embedded prefix the caller sees
the merged config unchanged. -/
theorem newClient_mutates_config (env : Env) (cfg0 : Config) :
    (NewClient env cfg0).1.Stack
      = (if cfg0.Stack = "" then env.watson_STACK else cfg0.Stack) ∧
    (NewClient env cfg0).1.HttpClient
      = (if cfg0.HttpClient = none then some defaultHttpClient else cfg0.HttpClient) ∧
    (∀ p rest cl, splitN2 (mergeConfig env cfg0).Address "://" = [p, rest] →
      (NewClient env cfg0).2 = Except.ok cl →
      (NewClient env cfg0).1.Address = rest ∧ (NewClient env cfg0).1.Scheme = p) ∧
    ((splitN2 (mergeConfig env cfg0).Address "://").length ≠ 2 →
      (NewClient env cfg0).1 = mergeConfig env cfg0) ∧
    (∀ e, (NewClient env cfg0).2 = Except.error e →
      (NewClient env cfg0).1 = mergeConfig env cfg0) ∧
    (∀ cl, (NewClient env cfg0).2 = Except.ok cl →
      cl.config = (NewClient env cfg0).1
        ∧ cl.headers = mkHeaders (NewClient env cfg0).1) := by
  have hstack : (mergeConfig env cfg0).Stack
      = (if cfg0.Stack = "" then env.watson_STACK else cfg0.Stack) := by
    rw [mergeConfig_eq]
  have hhttp : (mergeConfig env cfg0).HttpClient
      = (if cfg0.HttpClient = none then some defaultHttpClient
         else cfg0.HttpClient) := by
    rw [mergeConfig_eq]
  unfold NewClient
  rcases hap : applyEmbeddedScheme (mergeConfig env cfg0) with e | c2
  · refine ⟨hstack, hhttp, ?_, ?_, ?_, ?_⟩
    · intro p rest cl _ hok
      cases hok
    · intro _
      rfl
    · intro _ _
      rfl
    · intro cl hok
      cases hok
  · rcases applyEmbeddedScheme_ok _ _ hap with ⟨p, rest, hsp, _, hc2⟩ | ⟨hne, hc2⟩
    · refine ⟨?_, ?_, ?_, ?_, ?_, ?_⟩
      · rw [hc2]
        exact hstack
      · rw [hc2]
        exact hhttp
      · intro q qrest cl hq _
        rw [hsp] at hq
        cases hq
        simp [hc2]
      · intro hlen
        rw [hsp] at hlen
        simp at hlen
      · intro e he
        cases he
      · intro cl hok
        cases hok
        exact ⟨rfl, rfl⟩
    · refine ⟨?_, ?_, ?_, ?_, ?_, ?_⟩
      · rw [hc2]
        exact hstack
      · rw [hc2]
        exact hhttp
      · intro q qrest cl hq _
        rw [hq] at hne
        simp at hne
      · intro _
        exact hc2
      · intro e he
        cases he
      · intro cl hok
        cases hok
        exact ⟨rfl, rfl⟩

/-- One loop iteration appends the converted entry (when the value is a
string) and the diagnostics for that output. -/
theorem readOutputsStep_eq (acc : List (String × ProviderOutputEntry) × List Diagnostic)
    (k : String) (v : Output) :
    readOutputsStep acc k v
      = (acc.1 ++ (entryFor (k, v)).toList, acc.2 ++ diagsFor (k, v)) := by
  unfold readOutputsStep entryFor diagsFor ignoredDiag
  cases hv : v.Value <;> by_cases hd : v.Deprecated = "" <;> simp [hv, hd]

/-- The loop as a whole: the converted entries are the string-valued outputs
in order, and the diagnostics are the per-output diagnostics concatenated in
order. -/
theorem readOutputs_fold (l : Outputs) :
    ∀ acc, l.foldl (fun acc kv => readOutputsStep acc kv.1 kv.2) acc
      = (acc.1 ++ l.filterMap entryFor, acc.2 ++ l.flatMap diagsFor) := by
  induction l with
  | nil =>
    intro acc
    simp
  | cons kv t ih =>
    intro acc
    rw [List.foldl_cons, readOutputsStep_eq, ih]
    rcases hekv : entryFor (kv.1, kv.2) with _ | e <;>
      simp [List.filterMap_cons, hekv, List.append_assoc]

/-- Every diagnostic the loop can emit for one output is a warning. -/
theorem diagsFor_warn (kv : String × Output) (d : Diagnostic) (hd : d ∈ diagsFor kv) :
    d.severity = Severity.warn := by
  unfold diagsFor at hd
  rcases List.mem_append.mp hd with h1 | hC
  · rcases List.mem_append.mp h1 with hA | hB
    · cases hv : kv.2.Value <;> rw [hv] at hA <;> simp [ignoredDiag] at hA <;> simp [hA]
    · by_cases hdep : kv.2.Deprecated = ""
      · simp [hdep] at hB
      · simp [hdep] at hB
        simp [hB]
  · by_cases hdep : kv.2.Deprecated = ""
    · simp [hdep] at hC
    · simp [hdep] at hC
      simp [hC]

/-- C9: over any successfully decoded outputs payload, the provider's Read
loop converts exactly the string-valued outputs (each keyed entry carrying
its value, deprecated and warning fields), emits for every non-string-valued
output a warning diagnostic naming the output key and the Go type name of
its value, and emits only warnings — one badly-typed output never fails the
call. -/
theorem provider_read_partial_degradation (outs : Outputs) :
    (readOutputs outs).1 = outs.filterMap entryFor ∧
    (readOutputs outs).2 = outs.flatMap diagsFor ∧
    (∀ k v, (k, v) ∈ outs → isStringValue v.Value = false →
      ignoredDiag k v.Value ∈ (readOutputs outs).2) ∧
    (∀ k v s, (k, v) ∈ outs → v.Value = JsonValue.str s →
      (k, ProviderOutputEntry.mk s false v.Deprecated v.Warning)
        ∈ (readOutputs outs).1) ∧
    (∀ d, d ∈ (readOutputs outs).2 → d.severity = Severity.warn) := by
  have h1 : (readOutputs outs).1 = outs.filterMap entryFor := by
    unfold readOutputs
    rw [readOutputs_fold outs ([], [])]
    simp
  have h2 : (readOutputs outs).2 = outs.flatMap diagsFor := by
    unfold readOutputs
    rw [readOutputs_fold outs ([], [])]
    simp
  refine ⟨h1, h2, ?_, ?_, ?_⟩
  · intro k v hmem hns
    rw [h2, List.mem_flatMap]
    refine ⟨(k, v), hmem, ?_⟩
    unfold diagsFor
    cases hv : v.Value <;> simp [isStringValue, hv] at hns ⊢
  · intro k v s hmem hv
    rw [h1, List.mem_filterMap]
    refine ⟨(k, v), hmem, ?_⟩
    unfold entryFor
    rw [hv]
  · intro d hd
    rw [h2] at hd
    rcases List.mem_flatMap.mp hd with ⟨kv, _, hdk⟩
    exact diagsFor_warn kv d hdk

end Watson

